import Mathlib

/-!
Shallow embedding of the `Checker` repository (an IPTV playlist stream
checker) for verifying its natural-language specification.

Python strings are modelled as `List Char` (`PyStr`), so that the string
operations the code uses (`strip`, `startswith`, `endswith`, `lower`,
`split`, substring membership) have transparent, provable definitions:
`pyStrip`, `pyStartswith`, `pyEndswith`, `pyLower`, `List.splitOn`,
`pyContains`.  Network I/O is modelled by a `Net` record mapping a URL to
the outcome of a HEAD or GET request (`NetResult`): a response with status,
body and number of bytes a `read(1024)` yields, or a raised timeout, or a
raised non-timeout exception carrying its message.  `urllib.parse.urljoin`
is kept abstract as a field of `Net`.  Wall-clock time is passed in as an
explicit parameter.  The unbounded recursion of `_check_hls_stream` through
`_check_hls_variant` is given a fuel parameter; `none` models a
non-terminating (or deeper-than-fuel) execution.
-/

/-- Python strings, modelled as lists of characters. -/
abbrev PyStr := List Char

/-- Python `str.strip()` with no argument: drop whitespace from both ends. -/
def pyStrip (s : PyStr) : PyStr :=
  ((s.dropWhile Char.isWhitespace).reverse.dropWhile Char.isWhitespace).reverse

/-- Python `s.startswith(p)`. -/
def pyStartswith (s p : PyStr) : Bool :=
  p.isPrefixOf s

/-- Python `s.endswith(p)`. -/
def pyEndswith (s p : PyStr) : Bool :=
  p.isSuffixOf s

/-- Python `s.lower()` (ASCII-sufficient model via `Char.toLower`). -/
def pyLower (s : PyStr) : PyStr :=
  s.map Char.toLower

/-- Python `p in s` (substring membership). -/
def pyContains : PyStr → PyStr → Bool
  | [], pat => pat.isEmpty
  | c :: rest, pat => pat.isPrefixOf (c :: rest) || pyContains rest pat

/-- Python `s.split(sep)` for a one-character separator. -/
def pySplit (s : PyStr) (sep : Char) : List PyStr :=
  s.splitOn sep

/-- models.py: the regex search for `,([^,]+)$` in `IPTVChannel._extract_name`:
the last comma-separated field when a comma exists and the text after the
last comma is nonempty, stripped; otherwise the fixed placeholder. -/
def extract_name (extinf_line : PyStr) : PyStr :=
  let parts := pySplit extinf_line ','
  if 2 ≤ parts.length ∧ parts.getLastD [] ≠ [] then pyStrip (parts.getLastD [])
  else "Unknown Channel".data

/-- models.py `IPTVChannel`: one playlist entry with its verification state. -/
structure IPTVChannel where
  extinf_line : PyStr
  url : PyStr
  name : PyStr
  is_working : Bool
  response_time : Nat
  error_message : PyStr
  check_time : Option Nat
deriving DecidableEq, Repr

/-- models.py `IPTVChannel.__init__`: strips both arguments, derives the name
from the stripped metadata line, and starts with fresh verification state. -/
def IPTVChannel.make (extinf_line url : PyStr) : IPTVChannel :=
  { extinf_line := pyStrip extinf_line
    url := pyStrip url
    name := extract_name (pyStrip extinf_line)
    is_working := false
    response_time := 0
    error_message := []
    check_time := none }

/-- parser.py `M3UParser._is_valid_url`. -/
def M3UParser.is_valid_url (url : PyStr) : Bool :=
  if url.isEmpty || (pyStrip url).isEmpty then false
  else
    ["http://", "https://", "rtmp://", "rtmps://", "udp://", "rtp://"].any
      fun protocol => pyStartswith (pyLower url) protocol.data

/-- parser.py `M3UParser.parse`, main loop over the decoded lines: `extinf`
carries the pending `#EXTINF:` line (Python's `extinf_line` variable), `acc`
the channels collected so far in reverse order. -/
def M3UParser.parseLoop : List PyStr → Option PyStr → List IPTVChannel → List IPTVChannel
  | [], _, acc => acc.reverse
  | rawLine :: rest, extinf, acc =>
    let line := pyStrip rawLine
    if line.isEmpty then
      M3UParser.parseLoop rest extinf acc
    else if pyStartswith line "#EXTINF:".data then
      M3UParser.parseLoop rest (some line) acc
    else if !pyStartswith line "#".data then
      match extinf with
      | some extinfLine =>
        if M3UParser.is_valid_url line then
          M3UParser.parseLoop rest none (IPTVChannel.make extinfLine line :: acc)
        else
          M3UParser.parseLoop rest none acc
      | none =>
        M3UParser.parseLoop rest none acc
    else
      M3UParser.parseLoop rest extinf acc

/-- parser.py `M3UParser.parse` on already-decoded lines (file lookup and the
encoding loop are outside the model): raises when the content is empty,
otherwise runs the pairing loop from an empty state. -/
def M3UParser.parse (content : List PyStr) : Except String (List IPTVChannel) :=
  if content.isEmpty then .error "File is empty or could not be decoded"
  else .ok (M3UParser.parseLoop content none [])

/-- parser.py `M3UParser.save_playlist` as the sequence of lines written:
the header line, then each channel's metadata line followed by its URL. -/
def M3UParser.save_playlist (channels : List IPTVChannel) (header : PyStr) : List PyStr :=
  header :: channels.flatMap fun channel => [channel.extinf_line, channel.url]

/-- Outcome of one HTTP operation (HEAD or GET) in the network model: a
response carrying its status, its decoded text body, and the number of bytes
a `content.read(1024)` on it returns; or a raised `asyncio.TimeoutError`; or
any other raised exception with its `str(e)` message. -/
inductive NetResult where
  | timeout
  | err (msg : PyStr)
  | resp (status : Nat) (body : PyStr) (readLen : Nat)
deriving DecidableEq, Repr

/-- The network environment a check runs against: what each HEAD and GET
request returns, plus `urllib.parse.urljoin` kept abstract. -/
structure Net where
  head : PyStr → NetResult
  get : PyStr → NetResult
  urljoin : PyStr → PyStr → PyStr

/-- checker.py `StreamChecker._is_hls_stream`. -/
def StreamChecker.is_hls_stream (url : PyStr) : Bool :=
  pyEndswith url ".m3u8".data || pyContains (pyLower url) "m3u8".data

/-- checker.py `StreamChecker._is_http_stream`. -/
def StreamChecker.is_http_stream (url : PyStr) : Bool :=
  pyStartswith url "http://".data || pyStartswith url "https://".data

/-- The diagnostic f-string `HTTP {response.status}`. -/
def httpStatusMsg (status : Nat) : PyStr :=
  ("HTTP " ++ toString status).data

/-- checker.py `StreamChecker._check_with_partial_get`: a GET on the entry's
URL; non-200 status is broken with `HTTP <status>`, a 200 status is working
exactly when `read(1024)` returns at least one byte (an empty read returns
`False` without touching `error_message`); a timeout is broken `Timeout`,
any other exception is broken with its message. -/
def StreamChecker.check_with_partial_get (net : Net) (channel : IPTVChannel) :
    IPTVChannel × Bool :=
  match net.get channel.url with
  | .resp status _ readLen =>
    if status ≠ 200 then ({ channel with error_message := httpStatusMsg status }, false)
    else (channel, decide (0 < readLen))
  | .timeout => ({ channel with error_message := "Timeout".data }, false)
  | .err msg => ({ channel with error_message := msg }, false)

/-- checker.py `StreamChecker._check_http_stream`: a HEAD on the entry's URL;
200 is working, 405 falls back to the partial GET, any other status is broken
with `HTTP <status>`; a timeout is broken `Timeout` immediately, and any
other exception falls back to the partial GET. -/
def StreamChecker.check_http_stream (net : Net) (channel : IPTVChannel) :
    IPTVChannel × Bool :=
  match net.head channel.url with
  | .resp status _ _ =>
    if status = 200 then (channel, true)
    else if status = 405 then StreamChecker.check_with_partial_get net channel
    else ({ channel with error_message := httpStatusMsg status }, false)
  | .timeout => ({ channel with error_message := "Timeout".data }, false)
  | .err _ => StreamChecker.check_with_partial_get net channel

/-- checker.py `StreamChecker._check_generic_stream`. -/
def StreamChecker.check_generic_stream (net : Net) (channel : IPTVChannel) :
    IPTVChannel × Bool :=
  StreamChecker.check_http_stream net channel

/-- checker.py `StreamChecker._check_hls_segments`, segment collection loop:
strip each line, keep nonempty lines not starting with `#`, resolving those
not starting with `http` against the playlist URL, stopping once two
segments are collected. -/
def StreamChecker.collect_segments (net : Net) (baseUrl : PyStr) :
    List PyStr → List PyStr → List PyStr
  | [], acc => acc.reverse
  | rawLine :: rest, acc =>
    let line := pyStrip rawLine
    if !line.isEmpty && !pyStartswith line "#".data then
      let seg := if pyStartswith line "http".data then line else net.urljoin baseUrl line
      let acc2 := seg :: acc
      if 2 ≤ acc2.length then acc2.reverse
      else StreamChecker.collect_segments net baseUrl rest acc2
    else StreamChecker.collect_segments net baseUrl rest acc

/-- checker.py `StreamChecker._check_hls_segments`: collect segment URLs from
the media playlist; none is broken `No segments found`.  Otherwise HEAD the
first segment: a response answers `status == 200` directly (a non-200 status
is broken without an error message and without any fallback); only a raised
exception falls back to a GET on the same segment, which is working exactly
on status 200, and every remaining path is broken `Segment check failed`. -/
def StreamChecker.check_hls_segments (net : Net) (channel : IPTVChannel)
    (playlist_content : PyStr) : IPTVChannel × Bool :=
  match StreamChecker.collect_segments net channel.url (pySplit playlist_content '\n') [] with
  | [] => ({ channel with error_message := "No segments found".data }, false)
  | seg :: _ =>
    match net.head seg with
    | .resp status _ _ => (channel, decide (status = 200))
    | _ =>
      match net.get seg with
      | .resp status _ _ =>
        if status = 200 then (channel, true)
        else ({ channel with error_message := "Segment check failed".data }, false)
      | _ => ({ channel with error_message := "Segment check failed".data }, false)

/-- checker.py `StreamChecker._check_hls_variant`, line scan: the first line
starting with `#EXT-X-STREAM-INF:` whose following line strips to something
nonempty yields that stripped following line. -/
def StreamChecker.find_variant : List PyStr → Option PyStr
  | line1 :: line2 :: rest =>
    if pyStartswith line1 "#EXT-X-STREAM-INF:".data then
      let variant_url := pyStrip line2
      if variant_url.isEmpty then StreamChecker.find_variant (line2 :: rest)
      else some variant_url
    else StreamChecker.find_variant (line2 :: rest)
  | _ => none

/-- The temporary channel `_check_hls_variant` builds for the resolved
variant URL: constructed from the original metadata line, then given the
original channel's display name. -/
def StreamChecker.variant_temp_channel (net : Net) (channel : IPTVChannel)
    (variant_url : PyStr) : IPTVChannel :=
  { (IPTVChannel.make channel.extinf_line
      (if pyStartswith variant_url "http".data then variant_url
        else net.urljoin channel.url variant_url)) with
    name := channel.name }

/-- checker.py `StreamChecker._check_hls_stream`: GET the URL; non-200 is
broken `HTTP <status>`, a body not starting (after strip) with `#EXTM3U` is
broken `Invalid HLS playlist`; a body containing `#EXT-X-STREAM-INF:` goes to
the variant check (inlined here so the recursion is structural on the fuel —
`StreamChecker.check_hls_variant` below restates it and agrees
definitionally), else one containing `#EXTINF:` goes to the segment check,
else the bare valid header is working.  A timeout is broken `Timeout`, any
other exception broken with its message.  `fuel` bounds the recursion depth
through variants; `none` models an execution deeper than the fuel. -/
def StreamChecker.check_hls_stream (net : Net) :
    Nat → IPTVChannel → Option (IPTVChannel × Bool)
  | 0, _ => none
  | fuel + 1, channel =>
    match net.get channel.url with
    | .timeout => some ({ channel with error_message := "Timeout".data }, false)
    | .err msg => some ({ channel with error_message := msg }, false)
    | .resp status content _ =>
      if status ≠ 200 then
        some ({ channel with error_message := httpStatusMsg status }, false)
      else if !pyStartswith (pyStrip content) "#EXTM3U".data then
        some ({ channel with error_message := "Invalid HLS playlist".data }, false)
      else if pyContains content "#EXT-X-STREAM-INF:".data then
        match StreamChecker.find_variant (pySplit content '\n') with
        | some variant_url =>
          match StreamChecker.check_hls_stream net fuel
              (StreamChecker.variant_temp_channel net channel variant_url) with
          | some (_, result) => some (channel, result)
          | none => none
        | none => some ({ channel with error_message := "No valid variant found".data }, false)
      else if pyContains content "#EXTINF:".data then
        some (StreamChecker.check_hls_segments net channel content)
      else
        some (channel, true)

/-- checker.py `StreamChecker._check_hls_variant`: select the first variant
reference (tag line followed by a nonempty line); when none exists the entry
is broken `No valid variant found`; otherwise resolve the reference against
the playlist URL unless it already starts with `http`, build a temporary
channel carrying the original metadata line and name, and recursively run the
HLS check on it — its boolean is returned but its mutations stay on the
temporary channel. -/
def StreamChecker.check_hls_variant (net : Net) (fuel : Nat) (channel : IPTVChannel)
    (playlist_content : PyStr) : Option (IPTVChannel × Bool) :=
  match StreamChecker.find_variant (pySplit playlist_content '\n') with
  | some variant_url =>
    match StreamChecker.check_hls_stream net fuel
        (StreamChecker.variant_temp_channel net channel variant_url) with
    | some (_, result) => some (channel, result)
    | none => none
  | none => some ({ channel with error_message := "No valid variant found".data }, false)

/-- checker.py `StreamChecker.check_stream`: dispatch on the URL class, then
write the outcome back onto the channel — elapsed wall-clock time `t`, the
boolean into `is_working`, and the completion timestamp. -/
def StreamChecker.check_stream (net : Net) (fuel t : Nat) (channel : IPTVChannel) :
    Option (IPTVChannel × Bool) :=
  match (if StreamChecker.is_hls_stream channel.url then
      StreamChecker.check_hls_stream net fuel channel
    else if StreamChecker.is_http_stream channel.url then
      some (StreamChecker.check_http_stream net channel)
    else
      some (StreamChecker.check_generic_stream net channel)) with
  | none => none
  | some (channel1, result) =>
    some ({ channel1 with
      response_time := t
      is_working := result
      check_time := some t }, result)

/-- checker.py `StreamChecker.check_all_streams`, the gathered per-entry
tasks: each entry is checked exactly once and owns its own channel record, so
whatever the completion interleaving under the semaphore, the joint effect is
that of updating every channel by its own check, in input order. -/
def StreamChecker.run_all (net : Net) (fuel t : Nat) :
    List IPTVChannel → Option (List IPTVChannel)
  | [] => some []
  | channel :: rest =>
    match StreamChecker.check_stream net fuel t channel,
        StreamChecker.run_all net fuel t rest with
    | some (updated, _), some updatedRest => some (updated :: updatedRest)
    | _, _ => none

/-- checker.py `StreamChecker.check_all_streams`: run every channel's check
(`max_concurrent` is the semaphore bound; it limits in-flight requests but
plays no part in the outcome), then partition the mutated channels by their
final `is_working` flag, in input order. -/
def StreamChecker.check_all_streams (net : Net) (fuel t max_concurrent : Nat)
    (channels : List IPTVChannel) :
    Option (List IPTVChannel × List IPTVChannel) :=
  let _ := max_concurrent
  (StreamChecker.run_all net fuel t channels).map
    fun updated =>
      (updated.filter fun channel => channel.is_working,
       updated.filter fun channel => !channel.is_working)

/-- progress.py `ProgressTracker`: the per-file running tally (the tqdm bar
it drives is display only). -/
structure ProgressTracker where
  total : Nat
  completed : Nat
  working : Nat
  broken : Nat
deriving DecidableEq, Repr

/-- progress.py `ProgressTracker.__init__`: all counters start at zero. -/
def ProgressTracker.start (total : Nat) : ProgressTracker :=
  { total := total, completed := 0, working := 0, broken := 0 }

/-- progress.py `ProgressTracker.update`: one completion, counted as working
or broken according to its outcome. -/
def ProgressTracker.update (tr : ProgressTracker) (is_working : Bool) : ProgressTracker :=
  { tr with
    completed := tr.completed + 1
    working := if is_working then tr.working + 1 else tr.working
    broken := if is_working then tr.broken else tr.broken + 1 }

/-- The status record a `ProcessProgressTracker` publishes into the shared
dict (progress.py `_update_status` snapshot fields the counters feed). -/
structure ProcessStatusRec where
  completed : Nat
  working : Nat
  broken : Nat
deriving DecidableEq, Repr

/-- progress.py `ProcessProgressTracker`: same counters as `ProgressTracker`
plus the last snapshot published to the shared status dict. -/
structure ProcessProgressTracker where
  total : Nat
  completed : Nat
  working : Nat
  broken : Nat
  published : Option ProcessStatusRec
deriving DecidableEq, Repr

/-- progress.py `ProcessProgressTracker.__init__`. -/
def ProcessProgressTracker.start (total : Nat) : ProcessProgressTracker :=
  { total := total, completed := 0, working := 0, broken := 0, published := none }

/-- progress.py `ProcessProgressTracker.update`: bump the counters exactly as
`ProgressTracker.update` does, then publish a whole-record snapshot. -/
def ProcessProgressTracker.update (tr : ProcessProgressTracker) (is_working : Bool) :
    ProcessProgressTracker :=
  let completed := tr.completed + 1
  let working := if is_working then tr.working + 1 else tr.working
  let broken := if is_working then tr.broken else tr.broken + 1
  { tr with
    completed := completed
    working := working
    broken := broken
    published := some { completed := completed, working := working, broken := broken } }

/-- A whole verification run's worth of tracker updates: one per outcome. -/
def ProgressTracker.runAll (total : Nat) (outcomes : List Bool) : ProgressTracker :=
  outcomes.foldl ProgressTracker.update (ProgressTracker.start total)

/-- A whole verification run's worth of process-tracker updates. -/
def ProcessProgressTracker.runAll (total : Nat) (outcomes : List Bool) :
    ProcessProgressTracker :=
  outcomes.foldl ProcessProgressTracker.update (ProcessProgressTracker.start total)

/-- What `ResumeManager.should_skip_file` observes of the filesystem for one
source file: whether each derived output file exists at its conventional
path, and what `M3UParser.parse` returns on the source and on each output
(`Except.error` modelling a raised parse exception). -/
structure ResumeFS where
  workingExists : Bool
  brokenExists : Bool
  parseSource : Except String (List IPTVChannel)
  parseWorking : Except String (List IPTVChannel)
  parseBroken : Except String (List IPTVChannel)

/-- Parse one output file the way `should_skip_file` does: only consulted
when it exists, contributing its channel count, and propagating its parse
exception; an absent file contributes zero. -/
def ResumeFS.outputCount (isThere : Bool) (res : Except String (List IPTVChannel)) :
    Except String Nat :=
  if isThere then res.map List.length else .ok 0

/-- resume.py `ResumeManager.should_skip_file`: skip (complete) exactly when
some output exists, the source parses to a nonzero count, and the existing
outputs' combined count equals it; every raised parse error is caught into
`(False, "Error checking: <e>")`. -/
def ResumeManager.should_skip_file (fs : ResumeFS) : Bool × Option String :=
  if !fs.workingExists && !fs.brokenExists then (false, none)
  else
    match fs.parseSource with
    | .error e => (false, some ("Error checking: " ++ e))
    | .ok original_channels =>
      if original_channels.length = 0 then (false, some "Original file has no channels")
      else
        match ResumeFS.outputCount fs.workingExists fs.parseWorking with
        | .error e => (false, some ("Error checking: " ++ e))
        | .ok workingCount =>
          match ResumeFS.outputCount fs.brokenExists fs.parseBroken with
          | .error e => (false, some ("Error checking: " ++ e))
          | .ok brokenCount =>
            let total_output_channels := workingCount + brokenCount
            let original_count := original_channels.length
            let output_files :=
              (if fs.workingExists then [s!"working({workingCount})"] else []) ++
              (if fs.brokenExists then [s!"broken({brokenCount})"] else [])
            let joined := String.intercalate " + " output_files
            if total_output_channels = original_count then
              (true, some s!"Complete: {joined} = {total_output_channels}/{original_count}")
            else
              (false, some s!"Incomplete: {joined} = {total_output_channels}/{original_count}")

/-- Stated from the spec's words for C5 ("the first occurrence of the variant
tag followed by a non-empty next line"): position `i` of the split playlist
holds a selectable variant candidate — its line starts with the tag and the
next line strips to something nonempty (out-of-range positions read as the
empty line, which satisfies neither side). -/
def variantCandidateAt (lines : List PyStr) (i : Nat) : Prop :=
  pyStartswith (lines.getD i []) "#EXT-X-STREAM-INF:".data = true ∧
    pyStrip (lines.getD (i + 1) []) ≠ []

instance (lines : List PyStr) (i : Nat) : Decidable (variantCandidateAt lines i) :=
  inferInstanceAs (Decidable (_ ∧ _))

/-- Shape of every channel `M3UParser.parse` produces: both stored lines are
stripped fixed points, the metadata line carries the `#EXTINF:` tag, the URL
passed validation, and the whole record is what the constructor builds. -/
def WFChannel (c : IPTVChannel) : Prop :=
  pyStartswith c.extinf_line "#EXTINF:".data = true ∧
    M3UParser.is_valid_url c.url = true ∧
    c = IPTVChannel.make c.extinf_line c.url

/-- Concrete fixture: a network where every HEAD and GET answers 200 with a
five-byte body. -/
def netAll200 : Net :=
  { head := fun _ => NetResult.resp 200 [] 5
    get := fun _ => NetResult.resp 200 [] 5
    urljoin := fun a b => a ++ b }

/-- Concrete fixture: a direct-HTTP entry. -/
def chDirect : IPTVChannel :=
  IPTVChannel.make "#EXTINF:-1,Direct".data "http://a.example/x".data

/-- Concrete fixture: an HLS master-playlist entry. -/
def chMaster : IPTVChannel :=
  IPTVChannel.make "#EXTINF:-1,Master".data "http://m.example/m.m3u8".data

/-- Concrete fixture: the master playlist body `chMaster`'s URL serves. -/
def masterBody : PyStr :=
  "#EXTM3U\n#EXT-X-STREAM-INF:BANDWIDTH=1\nhttp://v.example/v\n".data

/-- Concrete fixture: a network serving `masterBody` at the master URL and
404 at the selected variant, so the recursive variant check fails. -/
def netMasterBroken : Net :=
  { head := fun _ => NetResult.timeout
    get := fun u =>
      if u = "http://m.example/m.m3u8".data then NetResult.resp 200 masterBody 0
      else if u = "http://v.example/v".data then NetResult.resp 404 [] 0
      else NetResult.timeout
    urljoin := fun a b => a ++ b }

/-- Concrete fixture: an HLS media-playlist entry. -/
def chMedia : IPTVChannel :=
  IPTVChannel.make "#EXTINF:-1,Media".data "http://s.example/s.m3u8".data

/-- Concrete fixture: the media playlist body with one segment line. -/
def mediaBody : PyStr :=
  "#EXTM3U\n#EXTINF:1,\nhttp://seg.example/1.ts\n".data

/-- Concrete fixture: HEAD on the segment answers 404 while GET on it would
answer 200 — the fallback the spec promises would succeed. -/
def netSeg404 : Net :=
  { head := fun u =>
      if u = "http://seg.example/1.ts".data then NetResult.resp 404 [] 0
      else NetResult.timeout
    get := fun _ => NetResult.resp 200 [] 5
    urljoin := fun a b => a ++ b }

/-- Concrete fixture: HEAD raises a timeout while GET would answer 200 with
bytes — the content-request fallback the claim promises would succeed. -/
def netHeadTimeout : Net :=
  { head := fun _ => NetResult.timeout
    get := fun _ => NetResult.resp 200 [] 5
    urljoin := fun a b => a ++ b }

/-- Concrete fixture: a resume state whose source file raises on parse while
a working output exists. -/
def fsSourceError : ResumeFS :=
  { workingExists := true
    brokenExists := false
    parseSource := .error "boom"
    parseWorking := .ok []
    parseBroken := .ok [] }

/-- Concrete fixture: a complete resume state — one working output covering
both of the source's two channels. -/
def fsComplete : ResumeFS :=
  { workingExists := true
    brokenExists := false
    parseSource := .ok [chDirect, chMedia]
    parseWorking := .ok [chDirect, chMedia]
    parseBroken := .error "unread"
    }

/-- Concrete fixture: HEAD raises a non-timeout exception while GET answers
200 with bytes. -/
def netHeadErr : Net :=
  { head := fun _ => NetResult.err "connection reset".data
    get := fun _ => NetResult.resp 200 [] 5
    urljoin := fun a b => a ++ b }

/-! Infrastructure lemmas about the Python-string model. -/

theorem head?_dropWhile_not (p : α → Bool) (l : List α) :
    ∀ a, (l.dropWhile p).head? = some a → p a = false := by
  induction l with
  | nil => intro a h; simp at h
  | cons x xs ih =>
    intro a h
    rw [List.dropWhile_cons] at h
    by_cases hx : p x = true
    · rw [if_pos hx] at h
      exact ih a h
    · rw [if_neg hx] at h
      simp only [List.head?_cons, Option.some.injEq] at h
      subst h
      exact Bool.eq_false_iff.mpr hx

theorem dropWhile_eq_self (p : α → Bool) (l : List α)
    (h : ∀ a, l.head? = some a → p a = false) : l.dropWhile p = l := by
  cases l with
  | nil => rfl
  | cons x xs => rw [List.dropWhile_cons, h x rfl]; simp

theorem getLast?_dropWhile_ne_nil (p : α → Bool) (l : List α)
    (h : l.dropWhile p ≠ []) : (l.dropWhile p).getLast? = l.getLast? := by
  obtain ⟨t, ht⟩ := List.dropWhile_suffix (l := l) p
  obtain ⟨x, hx⟩ := Option.isSome_iff_exists.mp (List.getLast?_isSome.mpr h)
  conv_rhs => rw [← ht]
  rw [List.getLast?_append, hx]
  rfl

theorem pyStrip_getLast (l : PyStr) :
    ∀ a, (pyStrip l).getLast? = some a → a.isWhitespace = false := by
  intro a h
  unfold pyStrip at h
  rw [List.getLast?_reverse] at h
  exact head?_dropWhile_not _ _ a h

theorem pyStrip_head (l : PyStr) :
    ∀ a, (pyStrip l).head? = some a → a.isWhitespace = false := by
  intro a h
  unfold pyStrip at h
  rw [List.head?_reverse] at h
  have hne : (l.dropWhile Char.isWhitespace).reverse.dropWhile Char.isWhitespace ≠ [] := by
    intro hnil
    rw [hnil] at h
    simp at h
  rw [getLast?_dropWhile_ne_nil _ _ hne, List.getLast?_reverse] at h
  exact head?_dropWhile_not _ _ a h

theorem pyStrip_eq_self (l : PyStr)
    (h1 : ∀ a, l.head? = some a → a.isWhitespace = false)
    (h2 : ∀ a, l.getLast? = some a → a.isWhitespace = false) : pyStrip l = l := by
  unfold pyStrip
  rw [dropWhile_eq_self _ _ h1]
  rw [dropWhile_eq_self _ _ (fun a ha => h2 a (by rwa [List.head?_reverse] at ha))]
  exact List.reverse_reverse l

theorem pyStrip_idem (l : PyStr) : pyStrip (pyStrip l) = pyStrip l :=
  pyStrip_eq_self (pyStrip l) (pyStrip_head l) (pyStrip_getLast l)

theorem pyStartswith_iff {s p : PyStr} : pyStartswith s p = true ↔ p <+: s :=
  List.isPrefixOf_iff_prefix

theorem pyStartswith_trans {s p q : PyStr} (hpq : p <+: q)
    (h : pyStartswith s q = true) : pyStartswith s p = true :=
  pyStartswith_iff.mpr (hpq.trans (pyStartswith_iff.mp h))

theorem pyStartswith_ne_nil {s p : PyStr} (hp : p ≠ [])
    (h : pyStartswith s p = true) : s ≠ [] := by
  intro hs
  exact hp (List.prefix_nil.mp (hs ▸ pyStartswith_iff.mp h))

theorem pyStartswith_cons_head {s : PyStr} {c : Char} {p : PyStr}
    (h : pyStartswith s (c :: p) = true) : s.head? = some c := by
  obtain ⟨t, ht⟩ := pyStartswith_iff.mp h
  rw [← ht]
  rfl

theorem pyLower_head? (s : PyStr) : (pyLower s).head? = s.head?.map Char.toLower := by
  cases s <;> simp [pyLower]

theorem is_valid_url_ne_nil {u : PyStr} (h : M3UParser.is_valid_url u = true) :
    u ≠ [] := by
  intro hnil
  rw [hnil] at h
  simp [M3UParser.is_valid_url] at h

theorem is_valid_url_head {u : PyStr} (h : M3UParser.is_valid_url u = true) :
    u.head?.map Char.toLower = some 'h' ∨ u.head?.map Char.toLower = some 'r' ∨
      u.head?.map Char.toLower = some 'u' := by
  unfold M3UParser.is_valid_url at h
  split at h
  · exact absurd h (by simp)
  · simp only [List.any_cons, List.any_nil, Bool.or_eq_true, Bool.or_false] at h
    rw [← pyLower_head? u]
    rcases h with h | h | h | h | h | h
    · exact Or.inl (pyStartswith_cons_head h)
    · exact Or.inl (pyStartswith_cons_head h)
    · exact Or.inr (Or.inl (pyStartswith_cons_head h))
    · exact Or.inr (Or.inl (pyStartswith_cons_head h))
    · exact Or.inr (Or.inr (pyStartswith_cons_head h))
    · exact Or.inr (Or.inl (pyStartswith_cons_head h))

theorem is_valid_url_not_hash {u : PyStr} (h : M3UParser.is_valid_url u = true) :
    pyStartswith u ("#".data) = false := by
  by_contra hcon
  rw [Bool.not_eq_false] at hcon
  have hd : "#".data = '#' :: ([] : PyStr) := rfl
  rw [hd] at hcon
  have hhead := pyStartswith_cons_head hcon
  rcases is_valid_url_head h with hv | hv | hv <;>
    · rw [hhead] at hv
      simp [Char.toLower] at hv

theorem length_filter_bool (p : α → Bool) (l : List α) :
    (l.filter p).length + (l.filter fun a => !p a).length = l.length := by
  induction l with
  | nil => rfl
  | cons x xs ih =>
    by_cases hx : p x = true <;> simp [List.filter_cons, hx, ← ih] <;> omega

/-! Helper lemmas about the stream checker. -/

theorem check_with_partial_get_true {net : Net} {ch c : IPTVChannel}
    (h : StreamChecker.check_with_partial_get net ch = (c, true)) : c = ch := by
  unfold StreamChecker.check_with_partial_get at h
  split at h
  · split at h
    · simp at h
    · simp only [Prod.mk.injEq] at h
      exact h.1.symm
  · simp at h
  · simp at h

theorem check_http_stream_true {net : Net} {ch c : IPTVChannel}
    (h : StreamChecker.check_http_stream net ch = (c, true)) : c = ch := by
  unfold StreamChecker.check_http_stream at h
  split at h
  · split at h
    · simp only [Prod.mk.injEq] at h
      exact h.1.symm
    · split at h
      · exact check_with_partial_get_true h
      · simp at h
  · simp at h
  · exact check_with_partial_get_true h

theorem check_hls_segments_true {net : Net} {ch c : IPTVChannel} {content : PyStr}
    (h : StreamChecker.check_hls_segments net ch content = (c, true)) : c = ch := by
  unfold StreamChecker.check_hls_segments at h
  split at h
  · simp at h
  · split at h
    · simp only [Prod.mk.injEq] at h
      exact h.1.symm
    · split at h
      · split at h
        · simp only [Prod.mk.injEq] at h
          exact h.1.symm
        · simp at h
      · simp at h

theorem check_hls_stream_true {net : Net} {fuel : Nat} {ch c : IPTVChannel}
    (h : StreamChecker.check_hls_stream net fuel ch = some (c, true)) : c = ch := by
  cases fuel with
  | zero => simp [StreamChecker.check_hls_stream] at h
  | succ fuel =>
    unfold StreamChecker.check_hls_stream at h
    split at h
    · simp at h
    · simp at h
    · split at h
      · simp at h
      · split at h
        · simp at h
        · split at h
          · split at h
            · split at h
              · simp only [Option.some.injEq, Prod.mk.injEq] at h
                exact h.1.symm
              · simp at h
            · simp at h
          · split at h
            · simp only [Option.some.injEq] at h
              exact check_hls_segments_true h
            · simp only [Option.some.injEq, Prod.mk.injEq] at h
              exact h.1.symm

theorem check_with_partial_get_msg {net : Net} {ch c : IPTVChannel} {r : Bool}
    (h : StreamChecker.check_with_partial_get net ch = (c, r)) :
    ∃ m, c = { ch with error_message := m } := by
  unfold StreamChecker.check_with_partial_get at h
  split at h
  · split at h
    · simp only [Prod.mk.injEq] at h
      exact ⟨_, h.1.symm⟩
    · simp only [Prod.mk.injEq] at h
      exact ⟨ch.error_message, h.1.symm⟩
  · simp only [Prod.mk.injEq] at h
    exact ⟨_, h.1.symm⟩
  · simp only [Prod.mk.injEq] at h
    exact ⟨_, h.1.symm⟩

theorem check_http_stream_msg {net : Net} {ch c : IPTVChannel} {r : Bool}
    (h : StreamChecker.check_http_stream net ch = (c, r)) :
    ∃ m, c = { ch with error_message := m } := by
  unfold StreamChecker.check_http_stream at h
  split at h
  · split at h
    · simp only [Prod.mk.injEq] at h
      exact ⟨ch.error_message, h.1.symm⟩
    · split at h
      · exact check_with_partial_get_msg h
      · simp only [Prod.mk.injEq] at h
        exact ⟨_, h.1.symm⟩
  · simp only [Prod.mk.injEq] at h
    exact ⟨_, h.1.symm⟩
  · exact check_with_partial_get_msg h

theorem check_hls_segments_msg {net : Net} {ch c : IPTVChannel} {content : PyStr} {r : Bool}
    (h : StreamChecker.check_hls_segments net ch content = (c, r)) :
    ∃ m, c = { ch with error_message := m } := by
  unfold StreamChecker.check_hls_segments at h
  split at h
  · simp only [Prod.mk.injEq] at h
    exact ⟨_, h.1.symm⟩
  · split at h
    · simp only [Prod.mk.injEq] at h
      exact ⟨ch.error_message, h.1.symm⟩
    · split at h
      · split at h
        · simp only [Prod.mk.injEq] at h
          exact ⟨ch.error_message, h.1.symm⟩
        · simp only [Prod.mk.injEq] at h
          exact ⟨_, h.1.symm⟩
      · simp only [Prod.mk.injEq] at h
        exact ⟨_, h.1.symm⟩

theorem check_hls_stream_msg {net : Net} {fuel : Nat} {ch : IPTVChannel}
    {p : IPTVChannel × Bool} (h : StreamChecker.check_hls_stream net fuel ch = some p) :
    ∃ m, p.1 = { ch with error_message := m } := by
  obtain ⟨c0, r0⟩ := p
  cases fuel with
  | zero => simp [StreamChecker.check_hls_stream] at h
  | succ fuel =>
    unfold StreamChecker.check_hls_stream at h
    split at h
    · simp only [Option.some.injEq] at h
      exact ⟨_, by rw [← h]⟩
    · simp only [Option.some.injEq] at h
      exact ⟨_, by rw [← h]⟩
    · split at h
      · simp only [Option.some.injEq] at h
        exact ⟨_, by rw [← h]⟩
      · split at h
        · simp only [Option.some.injEq] at h
          exact ⟨_, by rw [← h]⟩
        · split at h
          · split at h
            · split at h
              · simp only [Option.some.injEq] at h
                exact ⟨ch.error_message, by rw [← h]⟩
              · simp at h
            · simp only [Option.some.injEq] at h
              exact ⟨_, by rw [← h]⟩
          · split at h
            · simp only [Option.some.injEq] at h
              exact check_hls_segments_msg h
            · simp only [Option.some.injEq] at h
              exact ⟨ch.error_message, by rw [← h]⟩

theorem check_stream_char {net : Net} {fuel t : Nat} {ch c : IPTVChannel} {res : Bool}
    (h : StreamChecker.check_stream net fuel t ch = some (c, res)) :
    c.extinf_line = ch.extinf_line ∧ c.url = ch.url ∧ c.name = ch.name ∧
      c.is_working = res ∧ c.response_time = t ∧ c.check_time = some t ∧
      (res = true → c.error_message = ch.error_message) := by
  unfold StreamChecker.check_stream at h
  split at h
  · simp at h
  · rename_i p c1 r heq2
    simp only [Option.some.injEq, Prod.mk.injEq] at h
    obtain ⟨hc, hr⟩ := h
    subst hr
    have frame : ∃ m, c1 = { ch with error_message := m } := by
      split at heq2
      · obtain ⟨m, hm⟩ := check_hls_stream_msg heq2
        exact ⟨m, by simpa using hm⟩
      · split at heq2
        · simp only [Option.some.injEq] at heq2
          exact check_http_stream_msg heq2
        · unfold StreamChecker.check_generic_stream at heq2
          simp only [Option.some.injEq] at heq2
          exact check_http_stream_msg heq2
    have htrue : r = true → c1 = ch := by
      intro hres
      subst hres
      split at heq2
      · exact check_hls_stream_true heq2
      · split at heq2
        · simp only [Option.some.injEq] at heq2
          exact check_http_stream_true heq2
        · unfold StreamChecker.check_generic_stream at heq2
          simp only [Option.some.injEq] at heq2
          exact check_http_stream_true heq2
    obtain ⟨m, hm⟩ := frame
    subst hc
    refine ⟨?_, ?_, ?_, rfl, rfl, rfl, ?_⟩
    · rw [hm]
    · rw [hm]
    · rw [hm]
    · intro hres
      rw [htrue hres]

theorem run_all_length {net : Net} {fuel t : Nat} :
    ∀ {channels updated : List IPTVChannel},
      StreamChecker.run_all net fuel t channels = some updated →
      updated.length = channels.length := by
  intro channels
  induction channels with
  | nil =>
    intro updated h
    simp only [StreamChecker.run_all, Option.some.injEq] at h
    rw [← h]
  | cons ch rest ih =>
    intro updated h
    unfold StreamChecker.run_all at h
    split at h
    · rename_i p q c r cs heq1 heq2
      simp only [Option.some.injEq] at h
      rw [← h]
      simp [ih heq2]
    · simp at h

/-! Claim theorems. -/

/-- C1 counterexample: for the HLS master playlist served by
`netMasterBroken`, whose selected variant answers 404, `check_stream`
resolves with `is_working = false` and `error_message` still empty (the
`HTTP 404` diagnostic went to the temporary variant channel), so the claimed
"exactly one of isWorking or nonempty errorMessage" fails on this outcome
path. -/
theorem C1_counterexample :
    (StreamChecker.check_stream netMasterBroken 2 1 chMaster).map
      (fun p => (p.1.is_working, p.1.error_message)) = some (false, []) := by
  decide

/-- C1 (amended): after `check_stream` resolves on an entry with an empty
error message, at most one of `isWorking == true` / `errorMessage != ""`
holds — a working entry never carries a diagnostic; but the converse half of
the claim fails (see the counterexample): a broken entry can keep an empty
message on the master-variant, segment-HEAD-status and empty-partial-read
paths. -/
theorem C1_never_silent_success :
    ∀ (net : Net) (fuel t : Nat) (ch c : IPTVChannel) (res : Bool),
      ch.error_message = [] →
      StreamChecker.check_stream net fuel t ch = some (c, res) →
      c.is_working = true → c.error_message = [] := by
  intro net fuel t ch c res hfresh h hw
  obtain ⟨_, _, _, hwork, _, _, htrue⟩ := check_stream_char h
  rw [htrue (hwork.symm.trans hw), hfresh]

/-- C1 witness: the amended theorem applied to a direct-HTTP entry that
checks out working against `netAll200`. -/
theorem C1_witness :
    ({ chDirect with is_working := true, response_time := 1, check_time := some 1 } : IPTVChannel).error_message = [] :=
  C1_never_silent_success netAll200 1 1 chDirect
    { chDirect with is_working := true, response_time := 1, check_time := some 1 }
    true rfl (by decide) (by decide)

/-- C6 counterexample: `check_stream` does mutate the entry it is given — on
a working direct-HTTP check the returned channel differs from the input in
`is_working`, `response_time` and `check_time`, contradicting "the function
does not mutate the Entry". -/
theorem C6_counterexample :
    StreamChecker.check_stream netAll200 1 1 chDirect =
      some ({ chDirect with is_working := true, response_time := 1, check_time := some 1 }, true) ∧
    ({ chDirect with is_working := true, response_time := 1, check_time := some 1 } : IPTVChannel) ≠ chDirect := by
  decide

/-- C6 (amended): `check_stream` mutates exactly the outcome fields of the
Entry in place — it writes the boolean into `is_working`, the elapsed time
into `response_time`, the completion timestamp into `check_time` (and a
diagnostic into `error_message` on failure paths), while `extinf_line`,
`url` and `name` are unchanged; the orchestrator then reads the flag rather
than writing the outcome back. -/
theorem C6_mutates_outcome_fields :
    ∀ (net : Net) (fuel t : Nat) (ch c : IPTVChannel) (res : Bool),
      StreamChecker.check_stream net fuel t ch = some (c, res) →
      c.is_working = res ∧ c.response_time = t ∧ c.check_time = some t ∧
        c.extinf_line = ch.extinf_line ∧ c.url = ch.url ∧ c.name = ch.name := by
  intro net fuel t ch c res h
  obtain ⟨h1, h2, h3, h4, h5, h6, _⟩ := check_stream_char h
  exact ⟨h4, h5, h6, h1, h2, h3⟩

/-- C6 witness: the amended theorem applied to the concrete working check. -/
theorem C6_witness :
    ({ chDirect with is_working := true, response_time := 1, check_time := some 1 } : IPTVChannel).check_time = some 1 :=
  (C6_mutates_outcome_fields netAll200 1 1 chDirect
    { chDirect with is_working := true, response_time := 1, check_time := some 1 }
    true (by decide)).2.2.1

/-- C3 counterexample: a timeout raised by the header-only request does not
trigger the content-request fallback — `_check_http_stream` declares the
entry broken `Timeout` even though `_check_with_partial_get` against the same
network would succeed, contradicting "for every transport or timeout
exception ... performs the content-request fallback". -/
theorem C3_counterexample :
    StreamChecker.check_http_stream netHeadTimeout chDirect =
      ({ chDirect with error_message := "Timeout".data }, false) ∧
    StreamChecker.check_with_partial_get netHeadTimeout chDirect =
      (chDirect, true) := by
  decide

/-- C3 (amended): a non-timeout transport exception on the header-only
request (and an explicit 405 status) triggers the content-request fallback;
a timeout on the header request declares the entry broken `Timeout`
immediately with no fallback, and a timeout during the fallback GET is also
broken `Timeout`. -/
theorem C3_fallback_except_timeout :
    ∀ (net : Net) (ch : IPTVChannel) (m b : PyStr) (n : Nat),
      (net.head ch.url = NetResult.err m →
        StreamChecker.check_http_stream net ch =
          StreamChecker.check_with_partial_get net ch) ∧
      (net.head ch.url = NetResult.resp 405 b n →
        StreamChecker.check_http_stream net ch =
          StreamChecker.check_with_partial_get net ch) ∧
      (net.head ch.url = NetResult.timeout →
        StreamChecker.check_http_stream net ch =
          ({ ch with error_message := "Timeout".data }, false)) ∧
      (net.get ch.url = NetResult.timeout →
        StreamChecker.check_with_partial_get net ch =
          ({ ch with error_message := "Timeout".data }, false)) := by
  intro net ch m b n
  refine ⟨fun hh => ?_, fun hh => ?_, fun hh => ?_, fun hg => ?_⟩
  · simp [StreamChecker.check_http_stream, hh]
  · simp [StreamChecker.check_http_stream, hh]
  · simp [StreamChecker.check_http_stream, hh]
  · simp [StreamChecker.check_with_partial_get, hg]

/-- C3 witness: the amended theorem's exception branch applied to a network
whose HEAD raises a connection reset. -/
theorem C3_witness :
    StreamChecker.check_http_stream netHeadErr chDirect =
      StreamChecker.check_with_partial_get netHeadErr chDirect :=
  (C3_fallback_except_timeout netHeadErr chDirect "connection reset".data [] 0).1 rfl

/-- C4 counterexample: the first segment's header probe answers 404 — a
failed probe — yet no content-request fallback happens and the entry is left
broken with an empty `error_message` (not `Segment check failed`), even
though the GET the claim promises would have answered 200. -/
theorem C4_counterexample :
    StreamChecker.check_hls_segments netSeg404 chMedia mediaBody =
      (chMedia, false) ∧
    netSeg404.get "http://seg.example/1.ts".data = NetResult.resp 200 [] 5 := by
  decide

/-- C4 (amended): in HLS media-playlist verification the first collected
segment is probed with a header-only request and any answered status decides
the outcome directly (`status == 200`), with no fallback and no error
message on a non-200 status; only when the header probe raises an exception
does the verifier fall back to a content request on the same segment (200
means working), and if that also yields no 200 status the entry is broken
`Segment check failed`; `No segments found` is reserved for a playlist
yielding no segment URLs. -/
theorem C4_segment_probe :
    ∀ (net : Net) (ch : IPTVChannel) (content seg : PyStr) (rest : List PyStr)
      (st n : Nat) (b m : PyStr),
      (StreamChecker.collect_segments net ch.url (pySplit content '\n') [] = [] →
        StreamChecker.check_hls_segments net ch content =
          ({ ch with error_message := "No segments found".data }, false)) ∧
      (StreamChecker.collect_segments net ch.url (pySplit content '\n') [] = seg :: rest →
        net.head seg = NetResult.resp st b n →
        StreamChecker.check_hls_segments net ch content = (ch, decide (st = 200))) ∧
      (StreamChecker.collect_segments net ch.url (pySplit content '\n') [] = seg :: rest →
        (net.head seg = NetResult.timeout ∨ net.head seg = NetResult.err m) →
        net.get seg = NetResult.resp 200 b n →
        StreamChecker.check_hls_segments net ch content = (ch, true)) ∧
      (StreamChecker.collect_segments net ch.url (pySplit content '\n') [] = seg :: rest →
        (net.head seg = NetResult.timeout ∨ net.head seg = NetResult.err m) →
        (∀ b2 n2, net.get seg ≠ NetResult.resp 200 b2 n2) →
        StreamChecker.check_hls_segments net ch content =
          ({ ch with error_message := "Segment check failed".data }, false)) := by
  intro net ch content seg rest st n b m
  refine ⟨fun hsegs => ?_, fun hsegs hh => ?_, fun hsegs hfail hg => ?_,
    fun hsegs hfail hne => ?_⟩
  · unfold StreamChecker.check_hls_segments
    rw [hsegs]
  · unfold StreamChecker.check_hls_segments
    rw [hsegs]
    simp [hh]
  · unfold StreamChecker.check_hls_segments
    rw [hsegs]
    rcases hfail with hh | hh <;> simp [hh, hg]
  · unfold StreamChecker.check_hls_segments
    rw [hsegs]
    rcases hfail with hh | hh <;>
      · cases hg : net.get seg with
        | resp st2 b2 n2 =>
          by_cases h200 : st2 = 200
          · exact absurd (h200 ▸ hg) (hne b2 n2)
          · simp [hh, hg, h200]
        | timeout => simp [hh, hg]
        | err m2 => simp [hh, hg]

/-- C4 witness: the amended theorem's header-probe branch applied to the
all-200 network, where the first segment's HEAD answers 200 and the entry
checks out working. -/
theorem C4_witness :
    StreamChecker.check_hls_segments netAll200 chMedia mediaBody = (chMedia, true) := by
  have h := (C4_segment_probe netAll200 chMedia mediaBody
      "http://seg.example/1.ts".data [] 200 5 [] []).2.1 (by decide) rfl
  simpa using h

/-- C2: `check_all_streams` returns the stable partition of the per-entry
results by the final `is_working` flag — both partitions are order-preserving
sublists of the updated entry list, which matches the input list entrywise
(same length, one check per entry), their lengths sum to the input length,
and the empty input yields two empty partitions; `max_concurrent ≥ 1` is the
semaphore bound and plays no part in the outcome. -/
theorem C2_stable_partition :
    ∀ (net : Net) (fuel t mc : Nat) (channels updated w b : List IPTVChannel),
      1 ≤ mc →
      StreamChecker.run_all net fuel t channels = some updated →
      StreamChecker.check_all_streams net fuel t mc channels = some (w, b) →
      w = updated.filter (fun c => c.is_working) ∧
        b = updated.filter (fun c => !c.is_working) ∧
        updated.length = channels.length ∧
        w.length + b.length = channels.length ∧
        w.Sublist updated ∧ b.Sublist updated ∧
        (channels = [] → w = [] ∧ b = []) := by
  intro net fuel t mc channels updated w b hmc hrun hall
  unfold StreamChecker.check_all_streams at hall
  rw [hrun] at hall
  simp only [Option.map_some', Option.some.injEq, Prod.mk.injEq] at hall
  obtain ⟨hw, hb⟩ := hall
  subst hw
  subst hb
  refine ⟨rfl, rfl, run_all_length hrun, ?_, List.filter_sublist updated,
    List.filter_sublist updated, ?_⟩
  · rw [← run_all_length hrun]
    exact length_filter_bool _ updated
  · intro hnil
    subst hnil
    simp only [StreamChecker.run_all, Option.some.injEq] at hrun
    rw [← hrun]
    exact ⟨rfl, rfl⟩

/-- C2 witness: a two-entry run against `netAll200` — the direct-HTTP entry
checks out working, the HLS master entry is broken (`netAll200` serves an
empty body, not a valid playlist), and the partition lengths sum to two. -/
theorem C2_witness :
    ([{ chDirect with is_working := true, response_time := 1, check_time := some 1 }] : List IPTVChannel).length +
      ([{ chMaster with error_message := "Invalid HLS playlist".data, response_time := 1, check_time := some 1 }] : List IPTVChannel).length = 2 :=
  (C2_stable_partition netAll200 1 1 1 [chDirect, chMaster]
    [{ chDirect with is_working := true, response_time := 1, check_time := some 1 },
      { chMaster with error_message := "Invalid HLS playlist".data, response_time := 1, check_time := some 1 }]
    [{ chDirect with is_working := true, response_time := 1, check_time := some 1 }]
    [{ chMaster with error_message := "Invalid HLS playlist".data, response_time := 1, check_time := some 1 }]
    (by decide) (by decide) (by decide)).2.2.2.1

theorem variantCandidateAt_nil (i : Nat) : ¬ variantCandidateAt [] i := by
  intro hc
  have h1 := hc.1
  rw [List.getD_nil] at h1
  exact absurd h1 (by decide)

theorem variantCandidateAt_singleton (a : PyStr) (i : Nat) :
    ¬ variantCandidateAt [a] i := by
  intro hc
  cases i with
  | zero =>
    exact hc.2 (by rfl)
  | succ j =>
    have h1 := hc.1
    rw [List.getD_cons_succ, List.getD_nil] at h1
    exact absurd h1 (by decide)

theorem variantCandidateAt_cons {a : PyStr} {lines : List PyStr} {j : Nat} :
    variantCandidateAt (a :: lines) (j + 1) ↔ variantCandidateAt lines j := by
  unfold variantCandidateAt
  rw [List.getD_cons_succ, List.getD_cons_succ]

theorem find_variant_none_iff :
    ∀ (lines : List PyStr),
      StreamChecker.find_variant lines = none ↔ ∀ i, ¬ variantCandidateAt lines i := by
  intro lines
  induction lines with
  | nil =>
    simp only [StreamChecker.find_variant, true_iff]
    exact variantCandidateAt_nil
  | cons a tail ih =>
    cases tail with
    | nil =>
      simp only [StreamChecker.find_variant, true_iff]
      exact variantCandidateAt_singleton a
    | cons b rest =>
      unfold StreamChecker.find_variant
      by_cases hA : pyStartswith a ("#EXT-X-STREAM-INF:".data) = true
      · rw [if_pos hA]
        dsimp only
        by_cases hB : pyStrip b = []
        · rw [if_pos (List.isEmpty_iff.mpr hB)]
          rw [ih]
          constructor
          · intro h i
            cases i with
            | zero =>
              intro hc
              exact hc.2 (by simpa using hB)
            | succ j =>
              rw [variantCandidateAt_cons]
              exact h j
          · intro h i
            have hcand := h (i + 1)
            rw [variantCandidateAt_cons] at hcand
            exact hcand
        · rw [if_neg (by simpa [List.isEmpty_iff] using hB)]
          constructor
          · intro hsome
            exact absurd hsome (by simp)
          · intro h
            refine absurd ?_ (h 0)
            exact ⟨hA, by simpa using hB⟩
      · rw [if_neg hA]
        rw [ih]
        constructor
        · intro h i
          cases i with
          | zero =>
            intro hc
            exact hA hc.1
          | succ j =>
            rw [variantCandidateAt_cons]
            exact h j
        · intro h i
          have hcand := h (i + 1)
          rw [variantCandidateAt_cons] at hcand
          exact hcand

theorem find_variant_some_iff :
    ∀ (lines : List PyStr) (v : PyStr),
      StreamChecker.find_variant lines = some v ↔
        ∃ i, variantCandidateAt lines i ∧
          (∀ j, j < i → ¬ variantCandidateAt lines j) ∧
          v = pyStrip (lines.getD (i + 1) []) := by
  intro lines
  induction lines with
  | nil =>
    intro v
    constructor
    · intro h
      exact absurd h (by simp [StreamChecker.find_variant])
    · intro ⟨i, hc, _, _⟩
      exact absurd hc (variantCandidateAt_nil i)
  | cons a tail ih =>
    cases tail with
    | nil =>
      intro v
      constructor
      · intro h
        exact absurd h (by simp [StreamChecker.find_variant])
      · intro ⟨i, hc, _, _⟩
        exact absurd hc (variantCandidateAt_singleton a i)
    | cons b rest =>
      intro v
      unfold StreamChecker.find_variant
      by_cases hA : pyStartswith a ("#EXT-X-STREAM-INF:".data) = true
      · rw [if_pos hA]
        dsimp only
        by_cases hB : pyStrip b = []
        · rw [if_pos (List.isEmpty_iff.mpr hB)]
          rw [ih v]
          constructor
          · intro ⟨i, hc, hmin, hv⟩
            refine ⟨i + 1, variantCandidateAt_cons.mpr hc, ?_, ?_⟩
            · intro j hj
              cases j with
              | zero =>
                intro hc0
                exact hc0.2 (by simpa using hB)
              | succ k =>
                rw [variantCandidateAt_cons]
                exact hmin k (by omega)
            · rw [List.getD_cons_succ]
              exact hv
          · intro ⟨i, hc, hmin, hv⟩
            cases i with
            | zero =>
              exact absurd (by simpa using hB) (fun h2 => hc.2 h2)
            | succ k =>
              refine ⟨k, variantCandidateAt_cons.mp hc, ?_, ?_⟩
              · intro j hj
                have := hmin (j + 1) (by omega)
                rw [variantCandidateAt_cons] at this
                exact this
              · rw [List.getD_cons_succ] at hv
                exact hv
        · rw [if_neg (by simpa [List.isEmpty_iff] using hB)]
          constructor
          · intro h
            simp only [Option.some.injEq] at h
            refine ⟨0, ⟨hA, by simpa using hB⟩, by omega, ?_⟩
            rw [← h]
            rfl
          · intro ⟨i, hc, hmin, hv⟩
            cases i with
            | zero =>
              rw [hv]
              rfl
            | succ k =>
              refine absurd ⟨hA, by simpa using hB⟩ (hmin 0 (by omega))
      · rw [if_neg hA]
        rw [ih v]
        constructor
        · intro ⟨i, hc, hmin, hv⟩
          refine ⟨i + 1, variantCandidateAt_cons.mpr hc, ?_, ?_⟩
          · intro j hj
            cases j with
            | zero =>
              intro hc0
              exact hA hc0.1
            | succ k =>
              rw [variantCandidateAt_cons]
              exact hmin k (by omega)
          · rw [List.getD_cons_succ]
            exact hv
        · intro ⟨i, hc, hmin, hv⟩
          cases i with
          | zero =>
            exact absurd hc.1 hA
          | succ k =>
            refine ⟨k, variantCandidateAt_cons.mp hc, ?_, ?_⟩
            · intro j hj
              have := hmin (j + 1) (by omega)
              rw [variantCandidateAt_cons] at this
              exact this
            · rw [List.getD_cons_succ] at hv
              exact hv

/-- C5: in HLS master-playlist verification the playlist lines are scanned in
order and the selected variant reference is exactly the first position whose
line carries the `#EXT-X-STREAM-INF:` tag and whose next line strips to
something nonempty (no further candidate is considered); under a 200 response
whose valid body contains the tag, `_check_hls_stream` runs exactly
`_check_hls_variant`, which on a selected reference recursively runs a fresh
HLS check on the temporary channel for the reference — resolved against the
playlist URL unless it already starts with `http` — and on no selectable
reference is broken `No valid variant found`. -/
theorem C5_first_variant :
    ∀ (net : Net) (fuel n : Nat) (ch : IPTVChannel) (content v : PyStr),
      (StreamChecker.find_variant (pySplit content '\n') = some v ↔
        ∃ i, variantCandidateAt (pySplit content '\n') i ∧
          (∀ j, j < i → ¬ variantCandidateAt (pySplit content '\n') j) ∧
          v = pyStrip ((pySplit content '\n').getD (i + 1) [])) ∧
      (net.get ch.url = NetResult.resp 200 content n →
        pyStartswith (pyStrip content) "#EXTM3U".data = true →
        pyContains content "#EXT-X-STREAM-INF:".data = true →
        StreamChecker.check_hls_stream net (fuel + 1) ch =
          StreamChecker.check_hls_variant net fuel ch content) ∧
      (StreamChecker.find_variant (pySplit content '\n') = some v →
        StreamChecker.check_hls_variant net fuel ch content =
          Option.map (fun p => (ch, p.2))
            (StreamChecker.check_hls_stream net fuel
              (StreamChecker.variant_temp_channel net ch v))) ∧
      (StreamChecker.find_variant (pySplit content '\n') = none →
        StreamChecker.check_hls_variant net fuel ch content =
          some ({ ch with error_message := "No valid variant found".data }, false)) ∧
      StreamChecker.variant_temp_channel net ch v =
        { (IPTVChannel.make ch.extinf_line
            (if pyStartswith v "http".data then v else net.urljoin ch.url v)) with
          name := ch.name } := by
  intro net fuel n ch content v
  refine ⟨find_variant_some_iff (pySplit content '\n') v,
    fun hget hheader hcont => ?_, fun hv => ?_, fun hv => ?_, rfl⟩
  · unfold StreamChecker.check_hls_stream
    rw [hget]
    dsimp only
    rw [if_neg (by omega), if_neg (by simp [hheader]), if_pos hcont]
    rfl
  · unfold StreamChecker.check_hls_variant
    rw [hv]
    dsimp only
    cases hrec : StreamChecker.check_hls_stream net fuel
        (StreamChecker.variant_temp_channel net ch v) with
    | none => rfl
    | some p => rfl
  · unfold StreamChecker.check_hls_variant
    rw [hv]

/-- C5 witness: against `netMasterBroken`, the master playlist body selects
the variant `http://v.example/v` (the line after the first tag line), and the
variant check reports the recursive outcome on the original channel. -/
theorem C5_witness :
    StreamChecker.check_hls_variant netMasterBroken 1 chMaster masterBody =
      Option.map (fun p => (chMaster, p.2))
        (StreamChecker.check_hls_stream netMasterBroken 1
          (StreamChecker.variant_temp_channel netMasterBroken chMaster
            "http://v.example/v".data)) :=
  (C5_first_variant netMasterBroken 1 0 chMaster masterBody
    "http://v.example/v".data).2.2.1 (by decide)

theorem progress_foldl_counts :
    ∀ (outcomes : List Bool) (tr : ProgressTracker),
      (outcomes.foldl ProgressTracker.update tr).completed =
          tr.completed + outcomes.length ∧
        (outcomes.foldl ProgressTracker.update tr).working +
            (outcomes.foldl ProgressTracker.update tr).broken =
          tr.working + tr.broken + outcomes.length ∧
        (outcomes.foldl ProgressTracker.update tr).total = tr.total := by
  intro outcomes
  induction outcomes with
  | nil => intro tr; simp
  | cons bo rest ih =>
    intro tr
    obtain ⟨h1, h2, h3⟩ := ih (tr.update bo)
    refine ⟨?_, ?_, ?_⟩
    · rw [List.foldl_cons, h1]
      simp [ProgressTracker.update]
      omega
    · rw [List.foldl_cons, h2]
      cases bo <;> simp [ProgressTracker.update] <;> omega
    · rw [List.foldl_cons, h3]
      rfl

theorem process_foldl_counts :
    ∀ (outcomes : List Bool) (tr : ProcessProgressTracker),
      (outcomes.foldl ProcessProgressTracker.update tr).completed =
          tr.completed + outcomes.length ∧
        (outcomes.foldl ProcessProgressTracker.update tr).working +
            (outcomes.foldl ProcessProgressTracker.update tr).broken =
          tr.working + tr.broken + outcomes.length ∧
        (outcomes.foldl ProcessProgressTracker.update tr).total = tr.total := by
  intro outcomes
  induction outcomes with
  | nil => intro tr; simp
  | cons bo rest ih =>
    intro tr
    obtain ⟨h1, h2, h3⟩ := ih (tr.update bo)
    refine ⟨?_, ?_, ?_⟩
    · rw [List.foldl_cons, h1]
      simp [ProcessProgressTracker.update]
      omega
    · rw [List.foldl_cons, h2]
      cases bo <;> simp [ProcessProgressTracker.update] <;> omega
    · rw [List.foldl_cons, h3]
      rfl

/-- C9: for both tracker kinds the invariant `working + broken = completed ≤
total` holds at construction and is preserved by every update during a run —
each update adds one to `completed` and one to exactly one of `working` /
`broken` — and a run of one update per entry (`outcomes.length = total`,
normal completion) ends with `completed = total`. -/
theorem C9_tracker_invariant :
    ∀ (total : Nat) (tr : ProgressTracker) (ptr : ProcessProgressTracker)
      (bo : Bool) (outcomes : List Bool),
      ((ProgressTracker.start total).working + (ProgressTracker.start total).broken =
          (ProgressTracker.start total).completed ∧
        (ProgressTracker.start total).completed ≤ (ProgressTracker.start total).total) ∧
      ((tr.update bo).completed = tr.completed + 1 ∧
        (if bo then (tr.update bo).working = tr.working + 1 ∧ (tr.update bo).broken = tr.broken
          else (tr.update bo).working = tr.working ∧ (tr.update bo).broken = tr.broken + 1)) ∧
      (tr.working + tr.broken = tr.completed → tr.completed < tr.total →
        (tr.update bo).working + (tr.update bo).broken = (tr.update bo).completed ∧
          (tr.update bo).completed ≤ (tr.update bo).total) ∧
      (outcomes.length ≤ total →
        (ProgressTracker.runAll total outcomes).working +
            (ProgressTracker.runAll total outcomes).broken =
          (ProgressTracker.runAll total outcomes).completed ∧
        (ProgressTracker.runAll total outcomes).completed ≤
          (ProgressTracker.runAll total outcomes).total) ∧
      (outcomes.length = total →
        (ProgressTracker.runAll total outcomes).completed = total) ∧
      ((ptr.update bo).completed = ptr.completed + 1 ∧
        (if bo then (ptr.update bo).working = ptr.working + 1 ∧ (ptr.update bo).broken = ptr.broken
          else (ptr.update bo).working = ptr.working ∧ (ptr.update bo).broken = ptr.broken + 1)) ∧
      (ptr.working + ptr.broken = ptr.completed → ptr.completed < ptr.total →
        (ptr.update bo).working + (ptr.update bo).broken = (ptr.update bo).completed ∧
          (ptr.update bo).completed ≤ (ptr.update bo).total) ∧
      (outcomes.length ≤ total →
        (ProcessProgressTracker.runAll total outcomes).working +
            (ProcessProgressTracker.runAll total outcomes).broken =
          (ProcessProgressTracker.runAll total outcomes).completed ∧
        (ProcessProgressTracker.runAll total outcomes).completed ≤
          (ProcessProgressTracker.runAll total outcomes).total) ∧
      (outcomes.length = total →
        (ProcessProgressTracker.runAll total outcomes).completed = total) := by
  intro total tr ptr bo outcomes
  obtain ⟨hp1, hp2, hp3⟩ := progress_foldl_counts outcomes (ProgressTracker.start total)
  obtain ⟨hq1, hq2, hq3⟩ := process_foldl_counts outcomes (ProcessProgressTracker.start total)
  refine ⟨⟨rfl, by simp [ProgressTracker.start]⟩, ⟨rfl, ?_⟩, fun hinv hlt => ⟨?_, ?_⟩,
    fun hle => ⟨?_, ?_⟩, fun heq => ?_, ⟨rfl, ?_⟩, fun hinv hlt => ⟨?_, ?_⟩,
    fun hle => ⟨?_, ?_⟩, fun heq => ?_⟩
  · cases bo <;> simp [ProgressTracker.update]
  · cases bo <;> simp [ProgressTracker.update] <;> omega
  · simp [ProgressTracker.update]
    omega
  · unfold ProgressTracker.runAll
    rw [hp1, hp2]
    simp [ProgressTracker.start]
  · unfold ProgressTracker.runAll
    rw [hp1, hp3]
    simp [ProgressTracker.start]
    omega
  · unfold ProgressTracker.runAll
    rw [hp1]
    simp [ProgressTracker.start, heq]
  · cases bo <;> simp [ProcessProgressTracker.update]
  · cases bo <;> simp [ProcessProgressTracker.update] <;> omega
  · simp [ProcessProgressTracker.update]
    omega
  · unfold ProcessProgressTracker.runAll
    rw [hq1, hq2]
    simp [ProcessProgressTracker.start]
  · unfold ProcessProgressTracker.runAll
    rw [hq1, hq3]
    simp [ProcessProgressTracker.start]
    omega
  · unfold ProcessProgressTracker.runAll
    rw [hq1]
    simp [ProcessProgressTracker.start, heq]

/-- C9 witness: a three-entry run with outcomes working, broken, working. -/
theorem C9_witness :
    (ProgressTracker.runAll 3 [true, false, true]).working +
        (ProgressTracker.runAll 3 [true, false, true]).broken =
      (ProgressTracker.runAll 3 [true, false, true]).completed ∧
      (ProgressTracker.runAll 3 [true, false, true]).completed = 3 :=
  ⟨((C9_tracker_invariant 3 (ProgressTracker.start 3) (ProcessProgressTracker.start 3)
      true [true, false, true]).2.2.2.1 (by decide)).1,
    (C9_tracker_invariant 3 (ProgressTracker.start 3) (ProcessProgressTracker.start 3)
      true [true, false, true]).2.2.2.2.1 (by decide)⟩

theorem pyStartswith_extinf_hash {s : PyStr}
    (h : pyStartswith s ("#EXTINF:".data) = true) :
    pyStartswith s ("#".data) = true :=
  pyStartswith_trans ⟨"EXTINF:".data, by decide⟩ h

theorem parseLoop_cons (rawLine : PyStr) (rest : List PyStr) (extinf : Option PyStr)
    (acc : List IPTVChannel) :
    M3UParser.parseLoop (rawLine :: rest) extinf acc =
      (if (pyStrip rawLine).isEmpty then M3UParser.parseLoop rest extinf acc
        else if pyStartswith (pyStrip rawLine) "#EXTINF:".data then
          M3UParser.parseLoop rest (some (pyStrip rawLine)) acc
        else if !pyStartswith (pyStrip rawLine) "#".data then
          match extinf with
          | some extinfLine =>
            if M3UParser.is_valid_url (pyStrip rawLine) then
              M3UParser.parseLoop rest none
                (IPTVChannel.make extinfLine (pyStrip rawLine) :: acc)
            else M3UParser.parseLoop rest none acc
          | none => M3UParser.parseLoop rest none acc
        else M3UParser.parseLoop rest extinf acc) := rfl

/-- C10: during parsing, a nonempty comment line other than `#EXTINF:` seen
while a metadata line is pending is skipped without touching the pending
state, so the pending `#EXTINF:` line still pairs with the next non-comment
line; and consuming any non-comment line clears the pending metadata
whether or not its URL is valid (so each `#EXTINF:` line pairs with at most
one URL line, the channel being appended exactly when the URL validates). -/
theorem C10_comment_pairing :
    ∀ (c u : PyStr) (rest : List PyStr) (e : PyStr) (acc : List IPTVChannel),
      (pyStrip c ≠ [] → pyStartswith (pyStrip c) "#".data = true →
        pyStartswith (pyStrip c) "#EXTINF:".data = false →
        M3UParser.parseLoop (c :: rest) (some e) acc =
          M3UParser.parseLoop rest (some e) acc) ∧
      (pyStrip u ≠ [] → pyStartswith (pyStrip u) "#".data = false →
        M3UParser.parseLoop (u :: rest) (some e) acc =
          M3UParser.parseLoop rest none
            (if M3UParser.is_valid_url (pyStrip u) then
              IPTVChannel.make e (pyStrip u) :: acc
            else acc)) := by
  intro c u rest e acc
  refine ⟨fun hne hhash hnotext => ?_, fun hne hnothash => ?_⟩
  · rw [parseLoop_cons]
    rw [if_neg (by simp [List.isEmpty_iff, hne]), if_neg (by simp [hnotext]),
      if_neg (by simp [hhash])]
  · have hnoext : pyStartswith (pyStrip u) ("#EXTINF:".data) = false := by
      by_contra hcon
      rw [Bool.not_eq_false] at hcon
      rw [pyStartswith_extinf_hash hcon] at hnothash
      exact absurd hnothash (by simp)
    rw [parseLoop_cons]
    rw [if_neg (by simp [List.isEmpty_iff, hne]), if_neg (by simp [hnoext]),
      if_pos (by simp [hnothash])]
    by_cases hv : M3UParser.is_valid_url (pyStrip u) = true
    · simp [hv]
    · simp [hv]

/-- C10 witness: a `#EXTGRP:` comment between a pending metadata line and
the rest of the file is skipped with the pending line intact. -/
theorem C10_witness :
    M3UParser.parseLoop ["#EXTGRP:news".data] (some "#EXTINF:-1,A".data) [] =
      M3UParser.parseLoop [] (some "#EXTINF:-1,A".data) [] :=
  (C10_comment_pairing "#EXTGRP:news".data [] [] "#EXTINF:-1,A".data []).1
    (by decide) (by decide) (by decide)

/-- C7: `should_skip_file` classifies a source as complete exactly when at
least one derived output file exists, the source parses to a nonzero entry
count, and the summed entry counts of the existing outputs (each parsing
successfully, an absent output counting zero) equal the source's count; a
zero-entry source is never complete whatever outputs exist; a parse failure
at any of the three positions yields not-complete with the error captured in
the reason; with no outputs present the verdict is new with no reason. -/
theorem C7_resume_complete_iff :
    ∀ (fs : ResumeFS) (e : String) (orig : List IPTVChannel) (wc : Nat),
      ((ResumeManager.should_skip_file fs).1 = true ↔
        (fs.workingExists = true ∨ fs.brokenExists = true) ∧
        ∃ orig2 wc2 bc2, fs.parseSource = .ok orig2 ∧ orig2.length ≠ 0 ∧
          ResumeFS.outputCount fs.workingExists fs.parseWorking = .ok wc2 ∧
          ResumeFS.outputCount fs.brokenExists fs.parseBroken = .ok bc2 ∧
          wc2 + bc2 = orig2.length) ∧
      (fs.workingExists = false → fs.brokenExists = false →
        ResumeManager.should_skip_file fs = (false, none)) ∧
      ((fs.workingExists = true ∨ fs.brokenExists = true) →
        fs.parseSource = .error e →
        ResumeManager.should_skip_file fs = (false, some ("Error checking: " ++ e))) ∧
      ((fs.workingExists = true ∨ fs.brokenExists = true) →
        fs.parseSource = .ok orig → orig.length = 0 →
        ResumeManager.should_skip_file fs = (false, some "Original file has no channels")) ∧
      ((fs.workingExists = true ∨ fs.brokenExists = true) →
        fs.parseSource = .ok orig → orig.length ≠ 0 →
        ResumeFS.outputCount fs.workingExists fs.parseWorking = .error e →
        ResumeManager.should_skip_file fs = (false, some ("Error checking: " ++ e))) ∧
      ((fs.workingExists = true ∨ fs.brokenExists = true) →
        fs.parseSource = .ok orig → orig.length ≠ 0 →
        ResumeFS.outputCount fs.workingExists fs.parseWorking = .ok wc →
        ResumeFS.outputCount fs.brokenExists fs.parseBroken = .error e →
        ResumeManager.should_skip_file fs = (false, some ("Error checking: " ++ e))) := by
  intro fs e orig wc
  have hguard : ∀ (hw : fs.workingExists = true ∨ fs.brokenExists = true),
      (!fs.workingExists && !fs.brokenExists) = false := by
    intro hw
    rcases hw with hw | hw <;> simp [hw]
  refine ⟨?_, fun hw hb => ?_, fun hex hsrc => ?_, fun hex hsrc hzero => ?_,
    fun hex hsrc hnz hwerr => ?_, fun hex hsrc hnz hwok hberr => ?_⟩
  · unfold ResumeManager.should_skip_file
    by_cases hex : (!fs.workingExists && !fs.brokenExists) = true
    · rw [if_pos hex]
      simp only [Bool.and_eq_true, Bool.not_eq_true'] at hex
      simp [hex.1, hex.2]
    · rw [if_neg hex]
      have hor : fs.workingExists = true ∨ fs.brokenExists = true := by
        rcases hwb : fs.workingExists with _ | _
        · rcases hbb : fs.brokenExists with _ | _
          · exact absurd (by simp [hwb, hbb]) hex
          · exact Or.inr rfl
        · exact Or.inl rfl
      cases hsrc : fs.parseSource with
      | error e2 => simp
      | ok orig2 =>
        dsimp only
        by_cases hzero : orig2.length = 0
        · rw [if_pos hzero]
          have h0 : orig2 = [] := List.length_eq_zero.mp hzero
          subst h0
          simp
        · rw [if_neg hzero]
          cases hwc : ResumeFS.outputCount fs.workingExists fs.parseWorking with
          | error e2 => simp
          | ok wc2 =>
            dsimp only
            cases hbc : ResumeFS.outputCount fs.brokenExists fs.parseBroken with
            | error e2 => simp
            | ok bc2 =>
              dsimp only
              by_cases hsum : wc2 + bc2 = orig2.length
              · rw [if_pos hsum]
                simp only [true_iff]
                exact ⟨hor, orig2, wc2, bc2, rfl, hzero, rfl, rfl, hsum⟩
              · rw [if_neg hsum]
                refine ⟨fun hft => absurd hft (by simp), ?_⟩
                rintro ⟨_, orig3, wc3, bc3, hc1, hc2, hc3, hc4, hc5⟩
                rw [Except.ok.injEq] at hc1 hc3 hc4
                subst hc1
                subst hc3
                subst hc4
                exact absurd hc5 hsum
  · unfold ResumeManager.should_skip_file
    rw [if_pos (by simp [hw, hb])]
  · unfold ResumeManager.should_skip_file
    rw [if_neg (by simp [hguard hex]), hsrc]
  · unfold ResumeManager.should_skip_file
    rw [if_neg (by simp [hguard hex]), hsrc]
    simp [hzero]
  · unfold ResumeManager.should_skip_file
    rw [if_neg (by simp [hguard hex]), hsrc]
    simp only []
    rw [if_neg hnz, hwerr]
  · unfold ResumeManager.should_skip_file
    rw [if_neg (by simp [hguard hex]), hsrc]
    simp only []
    rw [if_neg hnz, hwok, hberr]

/-- C7 witness: a working output covering both of a two-entry source is
classified complete with its tally reason, and a source that fails to parse
is classified not-complete with the error in the reason. -/
theorem C7_witness :
    (ResumeManager.should_skip_file fsComplete).1 = true ∧
      ResumeManager.should_skip_file fsSourceError =
        (false, some ("Error checking: " ++ "boom")) :=
  ⟨(C7_resume_complete_iff fsComplete "x" [] 0).1.mpr
      ⟨Or.inl rfl, [chDirect, chMedia], 2, 0, rfl, by decide, rfl, rfl, by decide⟩,
    (C7_resume_complete_iff fsSourceError "boom" [] 0).2.2.1 (Or.inl rfl) rfl⟩

theorem WFChannel_make {e u : PyStr} (hse : pyStrip e = e)
    (he : pyStartswith e ("#EXTINF:".data) = true)
    (hsu : pyStrip u = u) (hu : M3UParser.is_valid_url u = true) :
    WFChannel (IPTVChannel.make e u) := by
  refine ⟨?_, ?_, ?_⟩
  · show pyStartswith (pyStrip e) ("#EXTINF:".data) = true
    rwa [hse]
  · show M3UParser.is_valid_url (pyStrip u) = true
    rwa [hsu]
  · show IPTVChannel.make e u = IPTVChannel.make (pyStrip e) (pyStrip u)
    rw [hse, hsu]

theorem parseLoop_WF :
    ∀ (lines : List PyStr) (pending : Option PyStr) (acc : List IPTVChannel),
      (∀ e, pending = some e →
        pyStrip e = e ∧ pyStartswith e ("#EXTINF:".data) = true) →
      (∀ c ∈ acc, WFChannel c) →
      ∀ c ∈ M3UParser.parseLoop lines pending acc, WFChannel c := by
  intro lines
  induction lines with
  | nil =>
    intro pending acc hpend hacc c hc
    unfold M3UParser.parseLoop at hc
    rw [List.mem_reverse] at hc
    exact hacc c hc
  | cons raw rest ih =>
    intro pending acc hpend hacc c hc
    rw [parseLoop_cons] at hc
    by_cases h1 : (pyStrip raw).isEmpty = true
    · rw [if_pos h1] at hc
      exact ih pending acc hpend hacc c hc
    · rw [if_neg h1] at hc
      by_cases h2 : pyStartswith (pyStrip raw) ("#EXTINF:".data) = true
      · rw [if_pos h2] at hc
        refine ih _ acc ?_ hacc c hc
        intro e he
        rw [Option.some.injEq] at he
        subst he
        exact ⟨pyStrip_idem raw, h2⟩
      · rw [if_neg h2] at hc
        by_cases h3 : (!pyStartswith (pyStrip raw) ("#".data)) = true
        · rw [if_pos h3] at hc
          cases pending with
          | some e =>
            dsimp only at hc
            by_cases hv : M3UParser.is_valid_url (pyStrip raw) = true
            · rw [if_pos hv] at hc
              refine ih none _ (by simp) ?_ c hc
              intro c2 hc2
              rw [List.mem_cons] at hc2
              rcases hc2 with hc2 | hc2
              · subst hc2
                exact WFChannel_make (hpend e rfl).1 (hpend e rfl).2 (pyStrip_idem raw) hv
              · exact hacc c2 hc2
            · rw [if_neg hv] at hc
              exact ih none acc (by simp) hacc c hc
          | none =>
            dsimp only at hc
            exact ih none acc (by simp) hacc c hc
        · rw [if_neg h3] at hc
          exact ih pending acc hpend hacc c hc

theorem parseLoop_save :
    ∀ (sub acc : List IPTVChannel),
      (∀ c ∈ sub, WFChannel c) →
      M3UParser.parseLoop (sub.flatMap fun c => [c.extinf_line, c.url]) none acc =
        acc.reverse ++ sub := by
  intro sub
  induction sub with
  | nil =>
    intro acc _
    simp [M3UParser.parseLoop]
  | cons c sub ih =>
    intro acc h
    obtain ⟨he, hu, heq⟩ := h c (by simp)
    have hse : pyStrip c.extinf_line = c.extinf_line := by
      conv_rhs => rw [heq]
      rfl
    have hsu : pyStrip c.url = c.url := by
      conv_rhs => rw [heq]
      rfl
    have hflat : (c :: sub).flatMap (fun c => [c.extinf_line, c.url]) =
        c.extinf_line :: c.url :: sub.flatMap (fun c => [c.extinf_line, c.url]) := by
      simp
    rw [hflat]
    rw [parseLoop_cons, hse,
      if_neg (by simp [List.isEmpty_iff,
        pyStartswith_ne_nil (by decide : ("#EXTINF:".data : PyStr) ≠ []) he]),
      if_pos he]
    have hnohash : pyStartswith c.url ("#".data) = false := is_valid_url_not_hash hu
    have hnoext : pyStartswith c.url ("#EXTINF:".data) = false := by
      by_contra hcon
      rw [Bool.not_eq_false] at hcon
      rw [pyStartswith_extinf_hash hcon] at hnohash
      exact absurd hnohash (by simp)
    rw [parseLoop_cons, hsu,
      if_neg (by simp [List.isEmpty_iff, is_valid_url_ne_nil hu]),
      if_neg (by simp [hnoext]),
      if_pos (by simp [hnohash])]
    dsimp only
    rw [if_pos hu, ← heq]
    rw [ih (c :: acc) (fun c2 hc2 => h c2 (List.mem_cons_of_mem c hc2))]
    simp

/-- C8: round-trip through the playlist file format — for entries obtained
from `parse`, saving any sublist of them with `save_playlist` (with the
default `#EXTM3U` header) and re-parsing the written lines returns exactly
that sublist: the same entry count, the same URLs, and the same order, with
no loss or duplication. -/
theorem C8_roundtrip :
    ∀ (content : List PyStr) (entries sub : List IPTVChannel),
      M3UParser.parse content = .ok entries →
      sub.Sublist entries →
      M3UParser.parse (M3UParser.save_playlist sub ("#EXTM3U".data)) = .ok sub ∧
        (M3UParser.parse (M3UParser.save_playlist sub ("#EXTM3U".data))).map
            (List.map fun c => c.url) = .ok (sub.map fun c => c.url) ∧
        (M3UParser.parse (M3UParser.save_playlist sub ("#EXTM3U".data))).map
            List.length = .ok sub.length := by
  intro content entries sub hparse hsub
  have hentries : entries = M3UParser.parseLoop content none [] := by
    unfold M3UParser.parse at hparse
    split at hparse
    · exact absurd hparse (by simp)
    · rw [Except.ok.injEq] at hparse
      exact hparse.symm
  have hWF : ∀ c ∈ sub, WFChannel c := by
    intro c hc
    refine parseLoop_WF content none [] (by simp) (by simp) c ?_
    rw [← hentries]
    exact hsub.subset hc
  have hmain : M3UParser.parse (M3UParser.save_playlist sub ("#EXTM3U".data)) = .ok sub := by
    unfold M3UParser.parse M3UParser.save_playlist
    rw [if_neg (by simp)]
    rw [parseLoop_cons]
    rw [show pyStrip ("#EXTM3U".data) = "#EXTM3U".data from by decide,
      if_neg (by decide), if_neg (by decide), if_neg (by decide)]
    rw [parseLoop_save sub [] hWF]
    rfl
  refine ⟨hmain, ?_, ?_⟩ <;> rw [hmain] <;> rfl

/-- C8 witness: a one-entry playlist round-trips through save and parse. -/
theorem C8_witness :
    M3UParser.parse (M3UParser.save_playlist [chDirect] ("#EXTM3U".data)) =
      .ok [chDirect] :=
  (C8_roundtrip ["#EXTM3U".data, "#EXTINF:-1,Direct".data, "http://a.example/x".data]
    [chDirect] [chDirect] (by rfl) (List.Sublist.refl [chDirect])).1
